import Mathlib

/-!
Verification development for the relay.mesos supervisor and demand-cell
layer (`relay_mesos/main.py`).

The Python source is shallowly embedded: the shared `mp.Value` counter
becomes an `Int` threaded explicitly, the callback closures become pure
functions returning the new state together with the list of externally
visible actions they perform, and the supervisor's monitor loop becomes
a recursive function over the sequence of observations it polls.
-/

namespace RelayMesos

/-! ## Demand Cell

`warmer_cooler_wrapper` in `main.py` closes over the shared value `MV`
and, under `MV.get_lock()`, executes

    if abs(MV.value) < abs(n):
        MV.value = n

We embed the body of the critical section as a pure function from the
current stored value and the argument to the new stored value. -/

/-- One `merge` step of the demand cell: the body of the critical section
in `_warmer_cooler_wrapper` (`main.py` lines 25–28). -/
def merge (current n : Int) : Int :=
  if current.natAbs < n.natAbs then n else current

/-- `take`: the scheduler-side consumption of the demand cell, which reads
the current value and resets the cell to `0` in the same critical section
(spec §4.1; the scheduler module is the consumer). Returns
`(pre-reset value, new cell contents)`. -/
def take (current : Int) : Int × Int := (current, 0)

/-- The cell contents after a sequence of `merge` calls starting from a
freshly taken (zero) cell. -/
def mergeAll (ns : List Int) : Int := ns.foldl merge 0

theorem merge_natAbs (c n : Int) : (merge c n).natAbs = max c.natAbs n.natAbs := by
  unfold merge
  split
  · omega
  · omega

theorem foldl_merge_mem (c : Int) (ns : List Int) :
    ns.foldl merge c ∈ c :: ns := by
  induction ns generalizing c with
  | nil => simp
  | cons n rest ih =>
    simp only [List.foldl_cons]
    rcases List.mem_cons.mp (ih (merge c n)) with h | h
    · have h2 : merge c n = c ∨ merge c n = n := by
        unfold merge
        split
        · right; rfl
        · left; rfl
      rw [h]
      rcases h2 with h2 | h2 <;> simp [h2]
    · simp [List.mem_cons, h]

theorem foldl_merge_natAbs_le (ns : List Int) :
    ∀ (c : Int), ∀ m ∈ c :: ns, m.natAbs ≤ (ns.foldl merge c).natAbs := by
  induction ns with
  | nil => simp
  | cons n rest ih =>
    intro c m hm
    simp only [List.foldl_cons]
    simp only [List.mem_cons] at hm
    rcases hm with h | h | h
    · rw [h]
      have := ih (merge c n) (merge c n) (by simp)
      have h2 := merge_natAbs c n
      omega
    · rw [h]
      have := ih (merge c n) (merge c n) (by simp)
      have h2 := merge_natAbs c n
      omega
    · exact ih (merge c n) m (by simp [h])

/-- C1 (claim as stated) fails: with current value `1`, the call
`merge (-1)` satisfies `|-1| ≥ |1|` yet the stored value is NOT replaced
by `-1`; the code keeps `1` because its guard is strict (`abs(MV.value) <
abs(n)`). -/
theorem merge_ge_replaces_false :
    (Int.natAbs (-1) ≥ Int.natAbs 1) ∧ merge 1 (-1) ≠ -1 := by
  decide

/-- C1 (amended): `merge(n)` replaces the stored value `c` with `n` iff
`|n| > |c|` strictly (or trivially when `n = c`); on `|n| ≤ |c|` the
stored value is kept unchanged. -/
theorem merge_strict_characterization (c n : Int) :
    (merge c n = n ↔ c.natAbs < n.natAbs ∨ n = c) ∧
    (merge c n = c ↔ n.natAbs ≤ c.natAbs ∨ n = c) := by
  unfold merge
  constructor
  · constructor
    · intro h
      split at h
      · left; assumption
      · right; omega
    · intro h
      rcases h with h | h
      · simp [h]
      · subst h; split <;> rfl
  · constructor
    · intro h
      split at h
      · right; omega
      · left; omega
    · intro h
      rcases h with h | h
      · have : ¬ c.natAbs < n.natAbs := by omega
        simp [this]
      · subst h; split <;> rfl

/-- C2: for any nonempty sequence of `merge` calls applied to a cell that
starts at `0` (i.e. just after a `take`), the value then stored in the
cell is one of the merged calls, and its absolute magnitude is the
maximum of the calls' absolute magnitudes. -/
theorem mergeAll_is_max_call (ns : List Int) (hne : ns ≠ []) :
    mergeAll ns ∈ ns ∧ ∀ m ∈ ns, m.natAbs ≤ (mergeAll ns).natAbs := by
  have hmem := foldl_merge_mem 0 ns
  have hle := foldl_merge_natAbs_le ns 0
  unfold mergeAll
  refine ⟨?_, fun m hm => hle m (by simp [hm])⟩
  rcases List.mem_cons.mp hmem with h | h
  · -- the fold returned the initial 0: every call has magnitude 0,
    -- hence every call IS 0, and 0 is a member since ns is nonempty
    rcases ns with _ | ⟨n, rest⟩
    · exact absurd rfl hne
    · have hn := hle n (by simp)
      rw [h] at hn ⊢
      simp only [Int.natAbs_zero, Nat.le_zero] at hn
      have : n = 0 := by omega
      simp [this]
  · exact h

/-- Witness for C2 at the concrete call sequence `[3, -5, 2]`. -/
theorem mergeAll_is_max_call_witness :
    mergeAll [3, -5, 2] ∈ ([3, -5, 2] : List Int) ∧
    ∀ m ∈ ([3, -5, 2] : List Int), m.natAbs ≤ (mergeAll [3, -5, 2]).natAbs :=
  mergeAll_is_max_call [3, -5, 2] (by decide)

/-- C10: the absolute value stored in the demand cell never decreases as a
result of a `merge` call, and `merge 0` is a no-op for every current
value (including `0`). -/
theorem merge_natAbs_monotone_and_zero (c n : Int) :
    c.natAbs ≤ (merge c n).natAbs ∧ merge c 0 = c := by
  constructor
  · have := merge_natAbs c n
    omega
  · unfold merge
    simp

/-! ## Failure budget (circuit breaker)

The scheduler module (`relay_mesos/scheduler.py`) that maintains the
failure budget is not part of the sources at hand; only its caller
(`init_mesos_scheduler`) and the `--max_failures` configuration knob
(`main.py` lines 196–205) are. The budget's dynamics below are therefore
modelled from the spec. -/

/-- Task states reported by cluster-manager status updates (spec §3,
TaskRecord). -/
inductive TaskState
  | staging
  | starting
  | running
  | finished
  | failed
  | lost
  | killed
deriving DecidableEq

/-- Modelled from the spec: the running-score update of the FailureBudget,
kept in the scheduler module which is absent from the sources. "Score
increments on Failed/Lost, decrements (clamped ≥ 0) on Running/Finished
transitions." (`Nat` subtraction is exactly the clamped decrement.) -/
def updateScore (s : Nat) (st : TaskState) : Nat :=
  match st with
  | .failed => s + 1
  | .lost => s + 1
  | .running => s - 1
  | .finished => s - 1
  | _ => s

/-- Modelled from the spec: the breaker check performed after every status
update. "Threshold < 0 disables the breaker; score > threshold trips
it." -/
def breakerTrips (threshold : Int) (s : Nat) : Bool :=
  decide (0 ≤ threshold) && decide (threshold < (s : Int))

/-- C3: Failed/Lost increment the score, Running/Finished decrement it
clamped at `0`, the breaker trips iff the threshold is nonnegative and
the score exceeds it, and a negative threshold disables the breaker for
every score. -/
theorem failure_budget_spec (s : Nat) (T : Int) :
    (updateScore s .failed = s + 1) ∧
    (updateScore s .lost = s + 1) ∧
    ((updateScore s .running : Int) = max 0 ((s : Int) - 1)) ∧
    ((updateScore s .finished : Int) = max 0 ((s : Int) - 1)) ∧
    (breakerTrips T s = true ↔ 0 ≤ T ∧ T < (s : Int)) ∧
    (T < 0 → breakerTrips T s = false) := by
  refine ⟨rfl, rfl, ?_, ?_, ?_, ?_⟩
  · show ((s - 1 : Nat) : Int) = max 0 ((s : Int) - 1)
    omega
  · show ((s - 1 : Nat) : Int) = max 0 ((s : Int) - 1)
    omega
  · unfold breakerTrips
    simp [Bool.and_eq_true, decide_eq_true_iff]
  · intro hT
    unfold breakerTrips
    simp only [Bool.and_eq_false_iff, decide_eq_false_iff_not]
    left
    omega

/-- Witness for C3 at score `4`, threshold `3` (the end-to-end example of
spec §8: the fourth failure trips a threshold-3 breaker). -/
theorem failure_budget_spec_witness :
    (updateScore 3 .failed = 4) ∧ (breakerTrips 3 4 = true) := by
  have h := failure_budget_spec 3 3
  have h4 := failure_budget_spec 4 3
  exact ⟨h.1, h4.2.2.2.2.1.mpr (by constructor <;> decide)⟩

/-! ## Driver exit status, startup, supervisor, signal handler -/

/-- The relevant driver run results of the cluster-manager protocol
(`mesos_pb2` status constants used by `init_mesos_scheduler`). -/
inductive DriverStatus
  | driverNotStarted
  | driverRunning
  | driverAborted
  | driverStopped
deriving DecidableEq

/-- `init_mesos_scheduler` (`main.py` lines 162–165): the scheduler-engine
process exits with `0 if driver.run() == mesos_pb2.DRIVER_STOPPED else 1`. -/
def init_mesos_scheduler_exit (runResult : DriverStatus) : Nat :=
  if runResult = DriverStatus.driverStopped then 0 else 1

/-- The configuration namespace fields `main` consults before spawning. -/
structure Config where
  mesos_master : Option String
  warmer : Option String
  cooler : Option String
deriving DecidableEq

/-- Outcome of `main`'s startup phase: either a fatal configuration error
(usage printed, exit before any `mp.Process` is created) or both child
processes spawned. -/
inductive StartOutcome
  | configError (printedUsage : Bool) (exitCode : Nat)
  | spawned (mesosStarted relayStarted : Bool)
deriving DecidableEq

/-- `main` startup (`main.py` lines 46–49, 73–84): if `ns.mesos_master is
None`, print usage and `sys.exit(1)`; otherwise create and start the
mesos and relay child processes. -/
def mainStart (ns : Config) : StartOutcome :=
  match ns.mesos_master with
  | none => .configError true 1
  | some _ => .spawned true true

/-- One poll of the supervisor's monitor loop condition
(`main.py` lines 104–120): the loop breaks when the fault channel has a
message, or when either child is no longer alive. -/
structure ChildrenStatus where
  faultPending : Bool
  relayAlive : Bool
  mesosAlive : Bool
deriving DecidableEq

def monitorBreaks (s : ChildrenStatus) : Bool :=
  s.faultPending || !s.relayAlive || !s.mesosAlive

/-- What the supervisor does once its monitor loop ends
(`main.py` lines 121–123): `relay.terminate(); mesos.terminate();
sys.exit(1)`. -/
structure SupExit where
  terminatedRelay : Bool
  terminatedMesos : Bool
  exitCode : Nat
deriving DecidableEq

/-- The supervisor's monitor loop over the sequence of observations it
polls: it runs until the first observation that breaks the loop, then
terminates both children and exits `1`. `none` means no observation in
the (finite) sequence ended the loop. -/
def runMonitor : List ChildrenStatus → Option SupExit
  | [] => none
  | s :: rest =>
    if monitorBreaks s then some ⟨true, true, 1⟩ else runMonitor rest

theorem runMonitor_exit_shape (tr : List ChildrenStatus) (e : SupExit) :
    runMonitor tr = some e → e = ⟨true, true, 1⟩ := by
  induction tr with
  | nil => intro h; exact absurd h (by simp [runMonitor])
  | cons s rest ih =>
    intro h
    unfold runMonitor at h
    split at h
    · exact (Option.some_inj.mp h).symm
    · exact ih h

/-- `kill_children` (`main.py` lines 86–101), the SIGTERM/SIGINT handler:
try to terminate mesos (logging on failure), try to terminate relay
(logging on failure), then `sys.exit(1)`. The two boolean arguments model
whether each `terminate()` call raises. -/
structure KillReport where
  attemptedMesos : Bool
  attemptedRelay : Bool
  mesosFailureLogged : Bool
  relayFailureLogged : Bool
  exitCode : Nat
deriving DecidableEq

def kill_children (mesosTermFails relayTermFails : Bool) : KillReport :=
  { attemptedMesos := true
    attemptedRelay := true
    mesosFailureLogged := mesosTermFails
    relayFailureLogged := relayTermFails
    exitCode := 1 }

/-- C4: the scheduler-engine process exits `0` exactly on a clean driver
stop and `1` on any other driver result; the supervisor exits `1` on a
configuration error, whenever its monitor loop ends (fault delivery or
child death — which is also how a missing binding or a breaker trip
surface), and from the external-signal handler. -/
theorem process_exit_codes (r : DriverStatus) (ns : Config)
    (tr : List ChildrenStatus) (e : SupExit) (mf rf : Bool) :
    (init_mesos_scheduler_exit DriverStatus.driverStopped = 0) ∧
    (r ≠ DriverStatus.driverStopped → init_mesos_scheduler_exit r = 1) ∧
    (ns.mesos_master = none → mainStart ns = StartOutcome.configError true 1) ∧
    (runMonitor tr = some e → e.exitCode = 1) ∧
    ((kill_children mf rf).exitCode = 1) := by
  refine ⟨rfl, ?_, ?_, ?_, rfl⟩
  · intro h
    unfold init_mesos_scheduler_exit
    simp [h]
  · intro h
    unfold mainStart
    rw [h]
  · intro h
    have := runMonitor_exit_shape tr e h
    rw [this]

/-- Witness for C4: a non-stopped driver result, a missing master, a
fault observation and the signal handler all yield exit code `1`, while a
clean stop yields `0`. -/
theorem process_exit_codes_witness :
    (init_mesos_scheduler_exit DriverStatus.driverStopped = 0) ∧
    (init_mesos_scheduler_exit DriverStatus.driverAborted = 1) ∧
    (mainStart ⟨none, some "w", none⟩ = StartOutcome.configError true 1) ∧
    (SupExit.mk true true 1).exitCode = 1 ∧
    ((kill_children true false).exitCode = 1) := by
  have h := process_exit_codes DriverStatus.driverAborted ⟨none, some "w", none⟩
    [⟨true, true, true⟩] ⟨true, true, 1⟩ true false
  exact ⟨h.1, h.2.1 (by decide), h.2.2.1 rfl, h.2.2.2.1 rfl, h.2.2.2.2⟩

/-- C5: the supervisor's monitor loop ends at the first observation that
reports a fault or a dead child; it then terminates both children and
exits with failure status, and every possible loop outcome is that same
terminate-both-exit-1 outcome — in particular no outcome restarts a
child. -/
theorem supervisor_fail_fast (pre post : List ChildrenStatus) (s : ChildrenStatus)
    (hpre : ∀ t ∈ pre, monitorBreaks t = false) (hs : monitorBreaks s = true) :
    runMonitor (pre ++ s :: post) = some ⟨true, true, 1⟩ ∧
    ∀ (tr : List ChildrenStatus) (e : SupExit),
      runMonitor tr = some e → e = ⟨true, true, 1⟩ := by
  refine ⟨?_, runMonitor_exit_shape⟩
  induction pre with
  | nil =>
    simp only [List.nil_append]
    unfold runMonitor
    simp [hs]
  | cons t rest ih =>
    have ht := hpre t (by simp)
    simp only [List.cons_append]
    unfold runMonitor
    rw [ht]
    simp only [Bool.false_eq_true, if_false]
    exact ih (fun u hu => hpre u (by simp [hu]))

/-- Witness for C5: a single healthy poll followed by a poll that sees the
dead mesos child ends the loop with both children terminated and exit
code 1. -/
theorem supervisor_fail_fast_witness :
    runMonitor ([⟨false, true, true⟩] ++ ⟨false, true, false⟩ :: []) =
      some ⟨true, true, 1⟩ ∧
    ∀ (tr : List ChildrenStatus) (e : SupExit),
      runMonitor tr = some e → e = ⟨true, true, 1⟩ :=
  supervisor_fail_fast [⟨false, true, true⟩] [] ⟨false, true, false⟩
    (by intro t ht; simp only [List.mem_singleton] at ht; rw [ht]; rfl)
    (by rfl)

/-- C8: a missing `--mesos_master` is fatal at startup: usage is printed
and the process exits 1 through the `configError` outcome, which spawns
neither child process. -/
theorem missing_master_no_spawn (ns : Config) (h : ns.mesos_master = none) :
    mainStart ns = StartOutcome.configError true 1 ∧
    ∀ m r : Bool, mainStart ns ≠ StartOutcome.spawned m r := by
  constructor
  · unfold mainStart
    rw [h]
  · intro m r
    unfold mainStart
    rw [h]
    intro hc
    exact absurd hc (by simp)

/-- Witness for C8 at a concrete configuration with no master endpoint. -/
theorem missing_master_no_spawn_witness :
    mainStart ⟨none, some "warm", some "cool"⟩ = StartOutcome.configError true 1 ∧
    ∀ m r : Bool,
      mainStart ⟨none, some "warm", some "cool"⟩ ≠ StartOutcome.spawned m r :=
  missing_master_no_spawn ⟨none, some "warm", some "cool"⟩ rfl

/-- C9: the signal handler always attempts to terminate both children and
always exits 1; a failing `terminate()` call is logged and never stops
the handler from terminating the other child and exiting. -/
theorem kill_children_best_effort (mf rf : Bool) :
    (kill_children mf rf).attemptedMesos = true ∧
    (kill_children mf rf).attemptedRelay = true ∧
    (kill_children mf rf).exitCode = 1 ∧
    (kill_children mf rf).mesosFailureLogged = mf ∧
    (kill_children mf rf).relayFailureLogged = rf :=
  ⟨rfl, rfl, rfl, rfl, rfl⟩

/-! ## The warmer/cooler callback as an effectful function

`_warmer_cooler_wrapper(n)` runs `log.debug`, takes the lock, performs
the merge on `MV`, and runs `log.debug` again. We embed it as a function
on a process state split into the demand cell and everything else, which
also reports the list of external actions the body performs. -/

/-- External actions a callback body can perform besides touching state. -/
inductive Action
  | logDebug
  | execCommand
deriving DecidableEq

/-- Process state split into the demand cell value and all other state
(of arbitrary type `σ`). -/
structure ProcState (σ : Type) where
  mv : Int
  other : σ

/-- `_warmer_cooler_wrapper` (`main.py` lines 19–29): two `log.debug`
calls around the locked merge of `n` into `MV`; nothing else. -/
def warmerCoolerCallback {σ : Type} (n : Int) (s : ProcState σ) :
    ProcState σ × List Action :=
  ({ s with mv := merge s.mv n }, [Action.logDebug, Action.logDebug])

/-- C7: invoking the warmer/cooler callback with `n` performs exactly
`merge n` on the demand cell, leaves all other state untouched, and never
executes the warmer/cooler command itself. -/
theorem callback_only_merges {σ : Type} (n : Int) (s : ProcState σ) :
    (warmerCoolerCallback n s).1.mv = merge s.mv n ∧
    (warmerCoolerCallback n s).1.other = s.other ∧
    Action.execCommand ∉ (warmerCoolerCallback n s).2 :=
  ⟨rfl, rfl, by simp [warmerCoolerCallback]⟩

/-! ## Readiness-gate ordering

`init_relay` (`main.py` lines 126–131) acquires `mesos_ready`, performs a
blocking `wait()` with no timeout, and only then enters `relay_main`,
whose warmer/cooler callbacks are the only writers of the demand cell.
The scheduler releases the gate on registration. We give a small
interleaving semantics for the two processes and the gate: the relay
process cannot pass the gate before it is released, and cannot write the
demand cell before it has passed the gate. -/

/-- Externally observable events of the gate/merge protocol. -/
inductive GateEvent
  | release
  | mergeWrite (n : Int)
deriving DecidableEq

/-- Joint state: whether `mesos_ready` has been notified, and whether
`init_relay` has returned from its blocking `wait()`. -/
structure GateSys where
  gateReleased : Bool
  relayRunning : Bool
deriving DecidableEq

/-- Both processes freshly started: gate not released, relay blocked. -/
def gateStart : GateSys := ⟨false, false⟩

/-- One interleaved step of the two processes. The relay process has no
transition that passes the wait while the gate is unreleased (the wait
has no timeout), and no transition that merges before the wait has
returned. -/
inductive GateStep : GateSys → Option GateEvent → GateSys → Prop
  | release (s : GateSys) :
      GateStep s (some GateEvent.release) { s with gateReleased := true }
  | passGate (s : GateSys) (h : s.gateReleased = true) :
      GateStep s none { s with relayRunning := true }
  | mergeWrite (s : GateSys) (n : Int) (h : s.relayRunning = true) :
      GateStep s (some (GateEvent.mergeWrite n)) s

/-- Finite executions, accumulating the emitted events in order. -/
inductive GateRun : GateSys → List GateEvent → GateSys → Prop
  | nil (s : GateSys) : GateRun s [] s
  | step (s s' s'' : GateSys) (e : Option GateEvent) (tr : List GateEvent)
      (h1 : GateStep s e s') (h2 : GateRun s' tr s'') :
      GateRun s (e.toList ++ tr) s''

theorem gate_run_merge_release (s s' : GateSys) (tr : List GateEvent)
    (hrun : GateRun s tr s') :
    ∀ (pre post : List GateEvent) (n : Int),
      tr = pre ++ GateEvent.mergeWrite n :: post →
      s.relayRunning = true ∨ s.gateReleased = true ∨ GateEvent.release ∈ pre := by
  induction hrun with
  | nil s =>
    intro pre post n htr
    exact absurd htr.symm (by simp)
  | step s s' s'' e tr h1 h2 ih =>
    intro pre post n htr
    cases h1 with
    | release =>
      simp only [Option.toList_some, List.singleton_append] at htr
      rcases pre with _ | ⟨p, pre'⟩
      · simp at htr
      · simp only [List.cons_append, List.cons.injEq] at htr
        right; right
        rw [← htr.1]
        simp
    | passGate h =>
      right; left
      exact h
    | mergeWrite n h =>
      left
      exact h

/-- C6: in every execution of the gate protocol from the fresh start
state, every demand-cell write is preceded by the gate-release event: the
control-loop process blocks on the readiness gate (no timeout) before the
loop, so no merge can be observed before the gate releases. -/
theorem readiness_gate_ordering (tr : List GateEvent) (s' : GateSys)
    (hrun : GateRun gateStart tr s')
    (pre post : List GateEvent) (n : Int)
    (htr : tr = pre ++ GateEvent.mergeWrite n :: post) :
    GateEvent.release ∈ pre := by
  rcases gate_run_merge_release gateStart s' tr hrun pre post n htr with h | h | h
  · exact absurd h (by simp [gateStart])
  · exact absurd h (by simp [gateStart])
  · exact h

theorem gate_run_example :
    GateRun gateStart [GateEvent.release, GateEvent.mergeWrite 5] ⟨true, true⟩ := by
  have h1 : GateStep gateStart (some GateEvent.release) ⟨true, false⟩ :=
    GateStep.release gateStart
  have h2 : GateStep ⟨true, false⟩ none ⟨true, true⟩ :=
    GateStep.passGate ⟨true, false⟩ rfl
  have h3 : GateStep ⟨true, true⟩ (some (GateEvent.mergeWrite 5)) ⟨true, true⟩ :=
    GateStep.mergeWrite ⟨true, true⟩ 5 rfl
  have r0 : GateRun (⟨true, true⟩ : GateSys) [] ⟨true, true⟩ := GateRun.nil _
  have r1 : GateRun (⟨true, true⟩ : GateSys) [GateEvent.mergeWrite 5] ⟨true, true⟩ :=
    GateRun.step _ _ _ _ _ h3 r0
  have r2 : GateRun (⟨true, false⟩ : GateSys) [GateEvent.mergeWrite 5] ⟨true, true⟩ :=
    GateRun.step _ _ _ _ _ h2 r1
  exact GateRun.step _ _ _ _ _ h1 r2

/-- Witness for C6 on a concrete execution: release, pass the gate, then
merge 5; the release event indeed precedes the merge. -/
theorem readiness_gate_ordering_witness :
    GateEvent.release ∈ [GateEvent.release] :=
  readiness_gate_ordering [GateEvent.release, GateEvent.mergeWrite 5] ⟨true, true⟩
    gate_run_example [GateEvent.release] [] 5 rfl

end RelayMesos
